import Mathlib

/-!
# Verification of the solistic-health core

A shallow embedding of the two core components of the repository:

* `src/import_health.py` — the streaming Apple Health XML importer
  (event-based parse, three row batches, replace-all SQLite store), and
* `src/app.py` — the time-series aggregation engine
  (`fetch_and_resample`, `fetch_exercise_minutes`, `series_to_list`)
  and the derived-scalar queries of the `/api/data` and `/api/snapshot`
  routes.

Modelling conventions:

* SQLite `REAL` values become `ℚ`; `NULL`able columns become `Option`.
* Python's `float(·)` / `int(·)` string conversions are kept abstract as
  parameters `pyFloat : String → Option ℚ` and `pyInt : String → Option ℤ`
  (`none` models the `ValueError` branch); no claim depends on which
  strings are numeric.
* Timestamps are minutes since an epoch (`ℕ`).  The importer stores
  fixed-format local timestamp strings, ordered exactly like the minute
  counts they denote, so range filters on the TEXT columns coincide with
  range filters on minutes.  The engine's pandas `DatetimeIndex` is
  represented by bucket indexes: an hour bucket is `t / 60`, a day bucket
  `t / 1440`.
* pandas semantics used below, per its documentation:
  `resample(f).sum(min_count=1)` and `resample(f).mean()` both yield NaN
  on an empty bin; the resampled index runs from the bucket of the first
  data timestamp to the bucket of the last; `rolling(n, min_periods=1).mean()`
  averages the non-NaN entries of each trailing `n`-window and yields NaN
  only when the whole window is NaN; `resample(f).ffill()` on upsampling
  assigns each new tick the value at the latest original label at or
  before it, NaN included ("missing values present before the upsampling
  are not modified"), over an index ending at the last original label.
  NaN is modelled as `none`.
* `round(float(v), 2)` in `series_to_list` and the display roundings of
  the scalar fields are binary floating-point display concerns; the model
  keeps exact values.  No claim below depends on display rounding.
-/

namespace SolisticHealth

/-! ## Small string utilities -/

/-- `isPrefixChars п hay`: the first list is a prefix of the second. -/
def isPrefixChars : List Char → List Char → Bool
  | [], _ => true
  | _ :: _, [] => false
  | a :: as, b :: bs => a = b && isPrefixChars as bs

/-- Occurrence of `needle` anywhere in `hay` (character lists). -/
def containsChars (needle : List Char) : List Char → Bool
  | [] => isPrefixChars needle []
  | c :: cs => isPrefixChars needle (c :: cs) || containsChars needle cs

/-- Python's `needle in hay` substring test on strings. -/
def strContains (hay needle : String) : Bool :=
  containsChars needle.toList hay.toList

/-! ## import_health.py — helpers -/

/-- `ALLOWED_RECORD_TYPES`: the seven `Record` types kept by the importer. -/
def ALLOWED_RECORD_TYPES : List String :=
  [ "HKQuantityTypeIdentifierBloodGlucose",
    "HKQuantityTypeIdentifierStepCount",
    "HKQuantityTypeIdentifierHeartRate",
    "HKQuantityTypeIdentifierDistanceWalkingRunning",
    "HKQuantityTypeIdentifierActiveEnergyBurned",
    "HKQuantityTypeIdentifierBasalEnergyBurned",
    "HKQuantityTypeIdentifierDistanceCycling" ]

/-- `BATCH_SIZE`: rows accumulated before a flush to SQLite. -/
def BATCH_SIZE : ℕ := 5000

/-- `parse_date`: truncate a timestamp string to 19 characters, stripping
the timezone suffix.  `None` and short/empty strings pass through. -/
def parse_date (d : Option String) : Option String :=
  match d with
  | none => none
  | some s => if s.length > 19 then some (s.take 19) else some s

/-- `_safe_float`: `None`/empty → `None`, otherwise Python `float(·)`
(`none` on `ValueError`). -/
def safe_float (pyFloat : String → Option ℚ) (v : Option String) : Option ℚ :=
  match v with
  | none => none
  | some s => if s = "" then none else pyFloat s

/-- `_safe_int`: `None`/empty → `None`, otherwise Python `int(·)`. -/
def safe_int (pyInt : String → Option ℤ) (v : Option String) : Option ℤ :=
  match v with
  | none => none
  | some s => if s = "" then none else pyInt s

/-! ## import_health.py — rows, store, flushes -/

/-- A row of the `records` table. -/
structure RecordRow where
  rtype : String
  source_name : Option String
  unit : Option String
  start_date : Option String
  end_date : Option String
  value : ℚ
deriving DecidableEq, Repr

/-- A row of the `activity_summaries` table (`date` is `UNIQUE`). -/
structure ActivityRow where
  date : String
  apple_exercise_time : Option ℚ
  active_energy_burned : Option ℚ
  active_energy_burned_goal : Option ℚ
  apple_stand_hours : Option ℤ
  apple_stand_hours_goal : Option ℤ
deriving DecidableEq, Repr

/-- A row of the `workouts` table. -/
structure WorkoutRow where
  activity_type : String
  duration : Option ℚ
  source_name : Option String
  start_date : Option String
  end_date : Option String
  total_distance : Option ℚ
  total_distance_unit : Option String
  total_energy_burned : Option ℚ
  total_energy_burned_unit : Option String
deriving DecidableEq, Repr

/-- The three-table SQLite store, freshly created by `_create_tables`. -/
structure DB where
  records : List RecordRow
  activities : List ActivityRow
  workouts : List WorkoutRow
deriving DecidableEq, Repr

def DB.empty : DB := ⟨[], [], []⟩

/-- `_flush_records`: plain batched `INSERT`. -/
def flush_records (db : DB) (batch : List RecordRow) : DB :=
  { db with records := db.records ++ batch }

/-- One `INSERT OR REPLACE` into `activity_summaries`: SQLite deletes any
row conflicting on the `UNIQUE date` column and appends the new row. -/
def upsertActivity (tbl : List ActivityRow) (r : ActivityRow) : List ActivityRow :=
  tbl.filter (fun x => x.date ≠ r.date) ++ [r]

/-- `_flush_activities`: `executemany` of `INSERT OR REPLACE`, in batch order. -/
def flush_activities (db : DB) (batch : List ActivityRow) : DB :=
  { db with activities := batch.foldl upsertActivity db.activities }

/-- `_flush_workouts`: plain batched `INSERT`. -/
def flush_workouts (db : DB) (batch : List WorkoutRow) : DB :=
  { db with workouts := db.workouts ++ batch }

/-! ## import_health.py — parse events

`iterparse` feeds every start/end tag to the loop; only five shapes hit a
branch (`end Record`, `end ActivitySummary`, `start Workout`,
`end WorkoutStatistics`, `end Workout`); everything else falls through. -/

/-- Attributes read from a `Record` element (`elem.attrib.get`). -/
structure RecordAttrs where
  rtype : Option String
  value : Option String
  sourceName : Option String
  unit : Option String
  startDate : Option String
  endDate : Option String
deriving DecidableEq, Repr

/-- Attributes read from an `ActivitySummary` element. -/
structure ActivityAttrs where
  dateComponents : Option String
  appleExerciseTime : Option String
  activeEnergyBurned : Option String
  activeEnergyBurnedGoal : Option String
  appleStandHours : Option String
  appleStandHoursGoal : Option String
deriving DecidableEq, Repr

/-- Attributes read from a `Workout` open tag. -/
structure WorkoutAttrs where
  workoutActivityType : Option String
  duration : Option String
  sourceName : Option String
  startDate : Option String
  endDate : Option String
deriving DecidableEq, Repr

/-- Attributes read from a `WorkoutStatistics` element. -/
structure StatAttrs where
  stype : Option String
  sum : Option String
  unit : Option String
deriving DecidableEq, Repr

/-- The parse events the importer's loop distinguishes. -/
inductive Event where
  | endRecord (a : RecordAttrs)
  | endActivity (a : ActivityAttrs)
  | startWorkout (a : WorkoutAttrs)
  | endWorkoutStat (a : StatAttrs)
  | endWorkout
  | other
deriving DecidableEq, Repr

/-- The in-flight workout session builder (`workout_pending`). -/
structure WorkoutPending where
  activity_type : String
  duration : Option ℚ
  source_name : Option String
  start_date : Option String
  end_date : Option String
  total_distance : Option ℚ
  total_distance_unit : Option String
  total_energy_burned : Option ℚ
  total_energy_burned_unit : Option String
deriving DecidableEq, Repr

/-- Committing a finished builder to the workout batch. -/
def WorkoutPending.toRow (w : WorkoutPending) : WorkoutRow :=
  ⟨w.activity_type, w.duration, w.source_name, w.start_date, w.end_date,
   w.total_distance, w.total_distance_unit,
   w.total_energy_burned, w.total_energy_burned_unit⟩

/-- Importer loop state: the store connection, the three accumulating
batches, the running total and the open session builder. -/
structure ImportState where
  db : DB
  record_batch : List RecordRow
  activity_batch : List ActivityRow
  workout_batch : List WorkoutRow
  total_count : ℕ
  workout_pending : Option WorkoutPending
deriving DecidableEq, Repr

def initState : ImportState := ⟨DB.empty, [], [], [], 0, none⟩

/-- The row the `end Record` branch appends, if any: the type must be in
`ALLOWED_RECORD_TYPES`, the `value` attribute present, and `float(value)`
must succeed (the `except` branch drops the row silently). -/
def appendedRecordRow (pyFloat : String → Option ℚ) (a : RecordAttrs) :
    Option RecordRow :=
  let rec_type := a.rtype.getD ""
  if rec_type ∈ ALLOWED_RECORD_TYPES then
    match a.value with
    | none => none
    | some v =>
      match pyFloat v with
      | none => none
      | some q =>
        some ⟨rec_type, a.sourceName, a.unit,
              parse_date a.startDate, parse_date a.endDate, q⟩
  else none

/-- One iteration of the importer's event loop. -/
def stepEvent (pyFloat : String → Option ℚ) (pyInt : String → Option ℤ)
    (s : ImportState) (ev : Event) : ImportState :=
  match ev with
  | .endRecord a =>
    let s1 :=
      match appendedRecordRow pyFloat a with
      | some row => { s with record_batch := s.record_batch ++ [row] }
      | none => s
    if s1.record_batch.length ≥ BATCH_SIZE then
      { s1 with
          db := flush_records s1.db s1.record_batch
          total_count := s1.total_count + s1.record_batch.length
          record_batch := [] }
    else s1
  | .endActivity a =>
    match a.dateComponents with
    | none => s
    | some d =>
      if d = "" then s
      else
        let row : ActivityRow :=
          ⟨d, safe_float pyFloat a.appleExerciseTime,
              safe_float pyFloat a.activeEnergyBurned,
              safe_float pyFloat a.activeEnergyBurnedGoal,
              safe_int pyInt a.appleStandHours,
              safe_int pyInt a.appleStandHoursGoal⟩
        { s with activity_batch := s.activity_batch ++ [row] }
  | .startWorkout a =>
    let w : WorkoutPending :=
      ⟨a.workoutActivityType.getD "", safe_float pyFloat a.duration,
       a.sourceName, parse_date a.startDate, parse_date a.endDate,
       none, none, none, none⟩
    { s with workout_pending := some w }
  | .endWorkoutStat a =>
    match s.workout_pending with
    | none => s
    | some w =>
      let stat_type := a.stype.getD ""
      if strContains stat_type "Distance" then
        let w1 := { w with total_distance := safe_float pyFloat a.sum
                           total_distance_unit := a.unit }
        { s with workout_pending := some w1 }
      else if strContains stat_type "EnergyBurned" then
        let w1 := { w with total_energy_burned := safe_float pyFloat a.sum
                           total_energy_burned_unit := a.unit }
        { s with workout_pending := some w1 }
      else s
  | .endWorkout =>
    match s.workout_pending with
    | none => s
    | some w =>
      { s with workout_batch := s.workout_batch ++ [w.toRow]
               workout_pending := none }
  | .other => s

/-- `import_from_xml`: drop/recreate the tables, stream the events, flush
the three remainders, and return the final store with the total row count. -/
def import_from_xml (pyFloat : String → Option ℚ) (pyInt : String → Option ℤ)
    (events : List Event) : DB × ℕ :=
  let s := events.foldl (stepEvent pyFloat pyInt) initState
  let db1 := flush_records s.db s.record_batch
  let c1 := s.total_count + s.record_batch.length
  let db2 := flush_activities db1 s.activity_batch
  let c2 := c1 + s.activity_batch.length
  let db3 := flush_workouts db2 s.workout_batch
  let c3 := c2 + s.workout_batch.length
  (db3, c3)

/-! ## app.py — time axis, resampling, smoothing

The engine reads the `records` table back through pandas.  A row's
`start_date` TEXT is parsed by `to_datetime`; fixed-format local
timestamps order exactly like the minute counts they denote, so the model
works with minutes (`t : ℕ`) directly.  A pandas `DatetimeIndex` tick is
represented by its bucket index (`t / 60` hourly, `t / 1440` daily);
`api_data` hands `fetch_and_resample` bucket-aligned boundaries (hour
starts for `"h"`, midnight/23:59:59 for `"D"`), so `pd.date_range` ticks
coincide with bucket indexes. -/

/-- Pandas resample frequency: `"h"` or `"D"`. -/
inductive Freq where
  | hour
  | day
deriving DecidableEq, Repr

/-- Aggregation kind for `fetch_and_resample`. -/
inductive Agg where
  | mean
  | sum
deriving DecidableEq, Repr

/-- The bucket (resample bin) containing minute `t`:  pandas floors
timestamps to the hour for `"h"` and to midnight for `"D"`. -/
def bucketOf : Freq → ℕ → ℕ
  | .hour, t => t / 60
  | .day, t => t / 1440

/-- `pd.date_range(start, end, freq)` for bucket-aligned boundaries:
the inclusive run of bucket indexes from `bucketOf qs` to `bucketOf qe`. -/
def axisTicks (f : Freq) (qs qe : ℕ) : List ℕ :=
  List.range' (bucketOf f qs) (bucketOf f qe + 1 - bucketOf f qs)

/-- A `records` row as seen by the engine (type, minutes, value). -/
structure TsRow where
  rtype : String
  t : ℕ
  value : ℚ
deriving DecidableEq, Repr

/-- The range query of `fetch_and_resample`:
`SELECT start_date, value FROM records WHERE type = ? AND start_date >= ?
AND start_date <= ? ORDER BY start_date`.  `ORDER BY` only fixes row
order, which the bucket aggregation below is insensitive to (it sums and
averages the same multisets), so the model keeps store order. -/
def queryRecords (tbl : List TsRow) (dtype : String) (qs qe : ℕ) :
    List (ℕ × ℚ) :=
  (tbl.filter (fun r =>
    r.rtype == dtype && decide (qs ≤ r.t) && decide (r.t ≤ qe))).map
    (fun r => (r.t, r.value))

/-- The values landing in bucket `b`. -/
def bucketRows (f : Freq) (b : ℕ) (rows : List (ℕ × ℚ)) : List ℚ :=
  (rows.filter (fun r => bucketOf f r.1 == b)).map Prod.snd

/-- One resample bin:  `.sum(min_count=1)` and `.mean()` both yield NaN
(`none`) on an empty bin; otherwise the sum, resp. the arithmetic mean. -/
def aggBucket (agg : Agg) (vs : List ℚ) : Option ℚ :=
  match vs with
  | [] => none
  | _ :: _ =>
    match agg with
    | .sum => some vs.sum
    | .mean => some (vs.sum / (vs.length : ℚ))

/-- `df["value"].resample(freq).sum(min_count=1)` / `.mean()`:
the resampled index runs from the bucket of the first data timestamp to
the bucket of the last, one entry per bucket. -/
def resample (agg : Agg) (f : Freq) (rows : List (ℕ × ℚ)) :
    List (ℕ × Option ℚ) :=
  match rows with
  | [] => []
  | r :: rs =>
    let lo := rs.foldl (fun m x => min m (bucketOf f x.1)) (bucketOf f r.1)
    let hi := rs.foldl (fun m x => max m (bucketOf f x.1)) (bucketOf f r.1)
    (List.range' lo (hi + 1 - lo)).map
      (fun b => (b, aggBucket agg (bucketRows f b (r :: rs))))

/-- The trailing window of positions `max 0 (i+1-n) … i`. -/
def windowSlice (n : ℕ) (xs : List (Option ℚ)) (i : ℕ) : List (Option ℚ) :=
  (xs.take (i + 1)).drop (i + 1 - n)

/-- The non-NaN entries of the trailing window. -/
def windowVals (n : ℕ) (xs : List (Option ℚ)) (i : ℕ) : List ℚ :=
  (windowSlice n xs i).filterMap id

/-- `pd.Series.rolling(n, min_periods=1).mean()`:  at each position the
mean of the non-NaN entries of the trailing `n`-window, NaN exactly when
the whole window is NaN. -/
def rolling (n : ℕ) (xs : List (Option ℚ)) : List (Option ℚ) :=
  (List.range xs.length).map (fun i =>
    let vs := windowVals n xs i
    if vs.isEmpty then none else some (vs.sum / (vs.length : ℚ)))

/-- `fetch_and_resample`:  query, early-return an all-NaN series over
`pd.date_range(start, end, freq)` when no rows match, otherwise resample
and (for `smoothing > 1`) smooth.  The returned series keeps its own
index; alignment to the common axis happens in `series_to_list`. -/
def fetch_and_resample (tbl : List TsRow) (dtype : String) (qs qe : ℕ)
    (f : Freq) (agg : Agg) (smoothing : ℕ) : List (ℕ × Option ℚ) :=
  let rows := queryRecords tbl dtype qs qe
  match rows with
  | [] => (axisTicks f qs qe).map (fun b => (b, none))
  | r :: rs =>
    let rsamp := resample agg f (r :: rs)
    let vals :=
      if smoothing > 1 then rolling smoothing (rsamp.map Prod.snd)
      else rsamp.map Prod.snd
    (rsamp.map Prod.fst).zip vals

/-- `series_to_list`: reindex a series onto the common axis; ticks the
series does not carry become NaN, and NaN serializes to JSON `null`.
(The `round(float(v), 2)` display rounding is not modelled.) -/
def series_to_list (s : List (ℕ × Option ℚ)) (axis : List ℕ) :
    List (Option ℚ) :=
  axis.map (fun b => (s.find? (fun p => p.1 == b)).bind Prod.snd)

/-! ## app.py — exercise minutes (activity_summaries path) -/

/-- An `activity_summaries` row as seen by the engine:  the `date` TEXT
parsed to a day index, and the nullable `apple_exercise_time`. -/
structure ActivityTsRow where
  day : ℕ
  exercise : Option ℚ
deriving DecidableEq, Repr

/-- The range query of `fetch_exercise_minutes` (day-level bounds built
with `strftime("%Y-%m-%d")`). -/
def queryActivities (tbl : List ActivityTsRow) (qs qe : ℕ) :
    List ActivityTsRow :=
  tbl.filter (fun r => decide (qs / 1440 ≤ r.day) && decide (r.day ≤ qe / 1440))

/-- One daily bin of `resample("D").sum(min_count=1)`:  the sum of the
non-null exercise values of day `d`, NaN when there is none. -/
def dailySum (rows : List ActivityTsRow) (d : ℕ) : Option ℚ :=
  let vs := (rows.filter (fun r => r.day == d)).filterMap (fun r => r.exercise)
  match vs with
  | [] => none
  | _ :: _ => some vs.sum

/-- `fetch_exercise_minutes`:  an absent `activity_summaries` table makes
the query raise; the `except` branch substitutes an empty frame, which
(like an empty query result) yields an all-NaN series over the axis.
Otherwise `resample("D").sum(min_count=1)` builds the daily series, and
for hourly freq `.resample("h").ffill()` upsamples it:  the hourly index
runs from the first day's midnight to the LAST day's midnight, and each
hour takes its own day's daily value as-is — a NaN day stays NaN ("missing
values present before the upsampling are not modified"). -/
def fetch_exercise_minutes (tbl : Option (List ActivityTsRow)) (qs qe : ℕ)
    (f : Freq) : List (ℕ × Option ℚ) :=
  let rows :=
    match tbl with
    | none => []
    | some t => queryActivities t qs qe
  match rows with
  | [] => (axisTicks f qs qe).map (fun b => (b, none))
  | r :: rs =>
    let dmin := rs.foldl (fun m x => min m x.day) r.day
    let dmax := rs.foldl (fun m x => max m x.day) r.day
    match f with
    | .hour =>
      (List.range' (dmin * 24) (dmax * 24 + 1 - dmin * 24)).map
        (fun h => (h, dailySum (r :: rs) (h / 24)))
    | .day =>
      (List.range' dmin (dmax + 1 - dmin)).map
        (fun d => (d, dailySum (r :: rs) d))

/-! ## app.py — routes and derived scalars -/

/-- The SQLite file as the routes see it: `none` models an absent table
(querying it raises `OperationalError`). -/
structure AppDB where
  records : Option (List TsRow)
  activity_summaries : Option (List ActivityTsRow)
deriving Repr

/-- `db_has_data`: `SELECT COUNT(*) FROM records` under `try/except` —
an absent table or a zero count both report no data. -/
def db_has_data (db : AppDB) : Bool :=
  match db.records with
  | none => false
  | some tbl => decide (0 < tbl.length)

/-- `get_latest_data_date`, called only after `db_has_data` succeeded:
`MAX(start_date)` truncated to the start of its hour; wall-clock `now`
only when the table is empty. -/
def get_latest_data_date (tbl : List TsRow) (now : ℕ) : ℕ :=
  match tbl with
  | [] => now / 60 * 60
  | r :: rs => (rs.foldl (fun m x => max m x.t) r.t) / 60 * 60

/-- One entry of `RANGE_CONFIG`: lookback minutes, freq, smoothing. -/
structure RangeCfg where
  deltaMin : ℕ
  freq : Freq
  smoothing : ℕ
deriving DecidableEq, Repr

def RANGE_CONFIG (s : String) : Option RangeCfg :=
  if s = "24h" then some ⟨24 * 60, .hour, 1⟩
  else if s = "7d" then some ⟨7 * 1440, .hour, 3⟩
  else if s = "14d" then some ⟨14 * 1440, .day, 1⟩
  else if s = "30d" then some ⟨30 * 1440, .day, 3⟩
  else if s = "3mo" then some ⟨90 * 1440, .day, 7⟩
  else if s = "6mo" then some ⟨180 * 1440, .day, 14⟩
  else none

/-- The window `api_data` passes to every fetch:  end anchored to the
latest data hour, start `delta` earlier; for daily freq the window is
widened to calendar-day boundaries (23:59:59 modelled as minute 1439). -/
def dataRange (cfg : RangeCfg) (tbl : List TsRow) (now : ℕ) : ℕ × ℕ :=
  let endD := get_latest_data_date tbl now
  let startD := endD - cfg.deltaMin
  match cfg.freq with
  | .day => (startD / 1440 * 1440, endD / 1440 * 1440 + 1439)
  | .hour => (startD, endD)

/-- `SELECT SUM(value) …`: SQL `SUM` of no rows is `NULL`. -/
def sqlSum (vs : List ℚ) : Option ℚ :=
  match vs with
  | [] => none
  | _ :: _ => some vs.sum

/-- `SELECT AVG(value) …`: SQL `AVG` of no rows is `NULL`. -/
def sqlAvg (vs : List ℚ) : Option ℚ :=
  match vs with
  | [] => none
  | _ :: _ => some (vs.sum / (vs.length : ℚ))

/-- The `x if row and row[0] else None` pattern applied to a fetched SQL
aggregate: `NULL` and the number `0` are both falsy and collapse to
`None`. -/
def truthyQ (o : Option ℚ) : Option ℚ :=
  match o with
  | none => none
  | some v => if v = 0 then none else some v

/-- The steps `SUM` of `api_data`'s snapshot block. -/
def stepsSumInRange (tbl : List TsRow) (qs qe : ℕ) : Option ℚ :=
  sqlSum ((queryRecords tbl "HKQuantityTypeIdentifierStepCount" qs qe).map
    Prod.snd)

/-- The glucose `AVG` of `api_data`'s snapshot block. -/
def glucoseAvgInRange (tbl : List TsRow) (qs qe : ℕ) : Option ℚ :=
  sqlAvg ((queryRecords tbl "HKQuantityTypeIdentifierBloodGlucose" qs qe).map
    Prod.snd)

/-- The exercise `AVG` of `api_data` (SQL `AVG` ignores `NULL`s); an
absent table raises and the `except` branch yields `None`. -/
def avgExerciseInRange (adb : Option (List ActivityTsRow)) (qs qe : ℕ) :
    Option ℚ :=
  match adb with
  | none => none
  | some tbl => sqlAvg ((queryActivities tbl qs qe).filterMap (fun r => r.exercise))

/-- The JSON payload of `/api/data` (label ticks kept as bucket indexes;
display roundings not modelled). -/
structure ChartResponse where
  labels : List ℕ
  glucose : List (Option ℚ)
  steps : List (Option ℚ)
  heart_rate : List (Option ℚ)
  active_calories : List (Option ℚ)
  resting_energy : List (Option ℚ)
  walking_running_distance : List (Option ℚ)
  cycling_distance : List (Option ℚ)
  exercise_minutes : List (Option ℚ)
  avg_glucose : Option ℚ
  avg_daily_steps : Option ℚ
  avg_exercise_minutes : Option ℚ
  rangeEcho : String
  freqEcho : Freq
deriving DecidableEq, Repr

/-- The early-return payload of `/api/data` before any upload. -/
def emptyChartResponse : ChartResponse :=
  ⟨[], [], [], [], [], [], [], [], [], none, none, none, "7d", .hour⟩

/-- The `/api/data` route. -/
def api_data (db : AppDB) (now : ℕ) (rangeParam : String) : ChartResponse :=
  if db_has_data db = false then emptyChartResponse
  else
    let tbl := db.records.getD []
    let cfg := (RANGE_CONFIG rangeParam).getD ⟨7 * 1440, .hour, 3⟩
    let se := dataRange cfg tbl now
    let startD := se.1
    let endD := se.2
    let freq := cfg.freq
    let sm := cfg.smoothing
    let axis := axisTicks freq startD endD
    let gl := fetch_and_resample tbl "HKQuantityTypeIdentifierBloodGlucose"
      startD endD freq .mean sm
    let st := fetch_and_resample tbl "HKQuantityTypeIdentifierStepCount"
      startD endD freq .sum sm
    let hr := fetch_and_resample tbl "HKQuantityTypeIdentifierHeartRate"
      startD endD freq .mean sm
    let ac := fetch_and_resample tbl "HKQuantityTypeIdentifierActiveEnergyBurned"
      startD endD freq .sum sm
    let re := fetch_and_resample tbl "HKQuantityTypeIdentifierBasalEnergyBurned"
      startD endD freq .sum sm
    let wd := fetch_and_resample tbl "HKQuantityTypeIdentifierDistanceWalkingRunning"
      startD endD freq .sum sm
    let cd := fetch_and_resample tbl "HKQuantityTypeIdentifierDistanceCycling"
      startD endD freq .sum sm
    let ex := fetch_exercise_minutes db.activity_summaries startD endD freq
    let numDays : ℕ := max 1 (cfg.deltaMin / 1440)
    { labels := axis
      glucose := series_to_list gl axis
      steps := series_to_list st axis
      heart_rate := series_to_list hr axis
      active_calories := series_to_list ac axis
      resting_energy := series_to_list re axis
      walking_running_distance := series_to_list wd axis
      cycling_distance := series_to_list cd axis
      exercise_minutes := series_to_list ex axis
      avg_glucose := truthyQ (glucoseAvgInRange tbl startD endD)
      avg_daily_steps :=
        match truthyQ (stepsSumInRange tbl startD endD) with
        | none => none
        | some s => some (s / (numDays : ℚ))
      avg_exercise_minutes :=
        truthyQ (avgExerciseInRange db.activity_summaries startD endD)
      rangeEcho := rangeParam
      freqEcho := freq }

/-- The JSON payload of `/api/snapshot` (`as_of` kept as a day index;
the `round`/`int` display conversions are not modelled). -/
structure SnapshotResponse where
  latest_glucose : Option ℚ
  total_steps : Option ℚ
  exercise_minutes : Option ℚ
  as_of : Option ℕ
deriving DecidableEq, Repr

def emptySnapshotResponse : SnapshotResponse := ⟨none, none, none, none⟩

/-- `ORDER BY start_date DESC LIMIT 1` (tie order among equal timestamps
is unspecified in SQLite; the model keeps the last stored maximum).
Note: this field is guarded only by `if row`, not `if row and row[0]`. -/
def latestGlucoseRow (tbl : List TsRow) : Option ℚ :=
  ((tbl.filter (fun r =>
      r.rtype == "HKQuantityTypeIdentifierBloodGlucose")).foldl
    (fun acc r =>
      match acc with
      | none => some (r.t, r.value)
      | some a => if a.1 ≤ r.t then some (r.t, r.value) else some a)
    none).map Prod.snd

/-- The `/api/snapshot` route. -/
def api_snapshot (db : AppDB) (now : ℕ) : SnapshotResponse :=
  if db_has_data db = false then emptySnapshotResponse
  else
    let tbl := db.records.getD []
    let latest := get_latest_data_date tbl now
    let dayStart := latest / 1440
    let steps := sqlSum ((tbl.filter (fun r =>
      r.rtype == "HKQuantityTypeIdentifierStepCount" &&
        decide (dayStart * 1440 ≤ r.t))).map (fun r => r.value))
    let ex :=
      match db.activity_summaries with
      | none => none
      | some atbl => (atbl.find? (fun r => r.day == dayStart)).bind
          (fun r => r.exercise)
    ⟨latestGlucoseRow tbl, truthyQ steps, truthyQ ex, some dayStart⟩

/-! ## Importer invariants -/

/-- A stored measurement row respects the import filter: allowed type and
a value that came out of a successful `float(·)` conversion. -/
def GoodRecord (pf : String → Option ℚ) (r : RecordRow) : Prop :=
  r.rtype ∈ ALLOWED_RECORD_TYPES ∧ ∃ v, pf v = some r.value

/-- The invariant the import loop maintains between events: the measurement
batch stays strictly under `BATCH_SIZE` (it is flushed the moment it
reaches it), the summary and workout tables are untouched mid-stream,
the running total counts exactly the flushed measurement rows, and every
measurement row (flushed or batched) passed the type/value filter. -/
structure LoopInv (pf : String → Option ℚ) (s : ImportState) : Prop where
  rb_lt : s.record_batch.length < BATCH_SIZE
  acts : s.db.activities = []
  wkts : s.db.workouts = []
  total : s.total_count = s.db.records.length
  good_db : ∀ r ∈ s.db.records, GoodRecord pf r
  good_rb : ∀ r ∈ s.record_batch, GoodRecord pf r

/-! ## Concrete fixtures used by counterexamples and witnesses -/

/-- An `ActivitySummary` element with a `dateComponents` attribute. -/
def c4Attrs : ActivityAttrs := ⟨some "2025-01-01", none, none, none, none, none⟩

def pfNone : String → Option ℚ := fun _ => none

def piNone : String → Option ℤ := fun _ => none

/-- A workout open tag with short (untruncated) timestamps. -/
def c7w : WorkoutAttrs :=
  ⟨some "HKWorkoutActivityTypeCycling", some "42.5", some "Watch",
   some "2025-08-16 00:31:43", some "2025-08-16 01:31:43"⟩

def c7d : StatAttrs :=
  ⟨some "HKQuantityTypeIdentifierDistanceCycling", some "10", some "mi"⟩

def c7e : StatAttrs :=
  ⟨some "HKQuantityTypeIdentifierActiveEnergyBurned", some "500", some "Cal"⟩

/-- The measurement table behind the C2 counterexample: steps at 00:00
and at 02:10, nothing in hour bucket 1. -/
def c2Tbl : List TsRow :=
  [⟨"HKQuantityTypeIdentifierStepCount", 0, 5⟩,
   ⟨"HKQuantityTypeIdentifierStepCount", 130, 7⟩]

/-- The summary table behind the C5 scenario: day 0 carries 10 exercise
minutes, day 2 carries 30, day 1 has no row. -/
def c5Tbl : List ActivityTsRow := [⟨0, some 10⟩, ⟨2, some 30⟩]

theorem appendedRecordRow_good (pf : String → Option ℚ) (a : RecordAttrs)
    (row : RecordRow) (h : appendedRecordRow pf a = some row) :
    GoodRecord pf row := by
  by_cases ht : a.rtype.getD "" ∈ ALLOWED_RECORD_TYPES
  · cases hv : a.value with
    | none => simp [appendedRecordRow, ht, hv] at h
    | some v =>
      cases hq : pf v with
      | none => simp [appendedRecordRow, ht, hv, hq] at h
      | some q =>
        simp only [appendedRecordRow, ht, if_true, hv, hq,
          Option.some.injEq] at h
        cases h
        exact ⟨ht, v, hq⟩
  · simp [appendedRecordRow, ht] at h

theorem initState_inv (pf : String → Option ℚ) : LoopInv pf initState := by
  refine ⟨?_, rfl, rfl, rfl, ?_, ?_⟩ <;> simp [initState, DB.empty, BATCH_SIZE]

theorem stepEvent_inv (pf : String → Option ℚ) (pyi : String → Option ℤ)
    (ev : Event) (s : ImportState) (h : LoopInv pf s) :
    LoopInv pf (stepEvent pf pyi s ev) := by
  obtain ⟨h1, h2, h3, h4, h5, h6⟩ := h
  cases ev with
  | endRecord a =>
    simp only [stepEvent]
    cases ha : appendedRecordRow pf a with
    | none =>
      simp only
      by_cases hb : s.record_batch.length ≥ BATCH_SIZE
      · exact absurd hb (by omega)
      · rw [if_neg hb]; exact ⟨h1, h2, h3, h4, h5, h6⟩
    | some row =>
      simp only
      have hgood : GoodRecord pf row := appendedRecordRow_good pf a row ha
      by_cases hb : (s.record_batch ++ [row]).length ≥ BATCH_SIZE
      · rw [if_pos hb]
        refine ⟨by norm_num [BATCH_SIZE], h2, h3, ?_, ?_, ?_⟩
        · simp [flush_records, h4]
        · intro r hr
          simp only [flush_records, List.mem_append, List.mem_singleton] at hr
          rcases hr with hr | hr | hr
          · exact h5 r hr
          · exact h6 r hr
          · subst hr; exact hgood
        · intro r hr; simp at hr
      · rw [if_neg hb]
        refine ⟨Nat.lt_of_not_le hb, h2, h3, h4, h5, ?_⟩
        intro r hr
        simp only [List.mem_append, List.mem_singleton] at hr
        rcases hr with hr | hr
        · exact h6 r hr
        · subst hr; exact hgood
  | endActivity a =>
    simp only [stepEvent]
    cases a.dateComponents with
    | none => exact ⟨h1, h2, h3, h4, h5, h6⟩
    | some d =>
      simp only
      by_cases hd : d = ""
      · rw [if_pos hd]; exact ⟨h1, h2, h3, h4, h5, h6⟩
      · rw [if_neg hd]; exact ⟨h1, h2, h3, h4, h5, h6⟩
  | startWorkout a => exact ⟨h1, h2, h3, h4, h5, h6⟩
  | endWorkoutStat a =>
    simp only [stepEvent]
    cases s.workout_pending with
    | none => exact ⟨h1, h2, h3, h4, h5, h6⟩
    | some w =>
      simp only
      by_cases hdist : strContains (a.stype.getD "") "Distance" = true
      · rw [if_pos hdist]; exact ⟨h1, h2, h3, h4, h5, h6⟩
      · rw [if_neg hdist]
        by_cases hen : strContains (a.stype.getD "") "EnergyBurned" = true
        · rw [if_pos hen]; exact ⟨h1, h2, h3, h4, h5, h6⟩
        · rw [if_neg hen]; exact ⟨h1, h2, h3, h4, h5, h6⟩
  | endWorkout =>
    simp only [stepEvent]
    cases s.workout_pending with
    | none => exact ⟨h1, h2, h3, h4, h5, h6⟩
    | some w => exact ⟨h1, h2, h3, h4, h5, h6⟩
  | other => exact ⟨h1, h2, h3, h4, h5, h6⟩

theorem foldl_inv (pf : String → Option ℚ) (pyi : String → Option ℤ)
    (events : List Event) (s : ImportState) (h : LoopInv pf s) :
    LoopInv pf (events.foldl (stepEvent pf pyi) s) := by
  induction events generalizing s with
  | nil => exact h
  | cons ev evs ih => exact ih _ (stepEvent_inv pf pyi ev s h)

theorem import_records_eq (pf : String → Option ℚ) (pyi : String → Option ℤ)
    (events : List Event) :
    (import_from_xml pf pyi events).1.records =
      (events.foldl (stepEvent pf pyi) initState).db.records ++
        (events.foldl (stepEvent pf pyi) initState).record_batch := by
  simp [import_from_xml, flush_records, flush_activities, flush_workouts]

theorem import_activities_eq (pf : String → Option ℚ) (pyi : String → Option ℤ)
    (events : List Event) :
    (import_from_xml pf pyi events).1.activities =
      (events.foldl (stepEvent pf pyi) initState).activity_batch.foldl
        upsertActivity (events.foldl (stepEvent pf pyi) initState).db.activities := by
  simp [import_from_xml, flush_records, flush_activities, flush_workouts]

theorem import_workouts_eq (pf : String → Option ℚ) (pyi : String → Option ℤ)
    (events : List Event) :
    (import_from_xml pf pyi events).1.workouts =
      (events.foldl (stepEvent pf pyi) initState).db.workouts ++
        (events.foldl (stepEvent pf pyi) initState).workout_batch := by
  simp [import_from_xml, flush_records, flush_activities, flush_workouts]

theorem import_count_eq (pf : String → Option ℚ) (pyi : String → Option ℤ)
    (events : List Event) :
    (import_from_xml pf pyi events).2 =
      (events.foldl (stepEvent pf pyi) initState).total_count +
        (events.foldl (stepEvent pf pyi) initState).record_batch.length +
        (events.foldl (stepEvent pf pyi) initState).activity_batch.length +
        (events.foldl (stepEvent pf pyi) initState).workout_batch.length := by
  simp [import_from_xml, flush_records, flush_activities, flush_workouts]

/-- C3: every row stored in the measurements table after an import has a
type in the fixed seven-element allowed set and a value that came out of a
successful numeric conversion; a measurement element with a type outside
the set, a missing value, or a non-numeric value is never appended (and
the handling is total — the conversion failure is swallowed, not raised). -/
theorem c3_measurement_filter :
    ALLOWED_RECORD_TYPES.length = 7 ∧
    (∀ (pf : String → Option ℚ) (pyi : String → Option ℤ) (events : List Event),
      ∀ r ∈ (import_from_xml pf pyi events).1.records, GoodRecord pf r) ∧
    (∀ (pf : String → Option ℚ) (a : RecordAttrs),
      (a.rtype.getD "" ∉ ALLOWED_RECORD_TYPES ∨ a.value = none ∨
        (∃ v, a.value = some v ∧ pf v = none)) →
      appendedRecordRow pf a = none) := by
  refine ⟨rfl, ?_, ?_⟩
  · intro pf pyi events r hr
    have inv := foldl_inv pf pyi events initState (initState_inv pf)
    rw [import_records_eq] at hr
    rcases List.mem_append.mp hr with h | h
    · exact inv.good_db r h
    · exact inv.good_rb r h
  · intro pf a h
    rcases h with h | h | ⟨v, hv, hpf⟩
    · simp [appendedRecordRow, h]
    · by_cases ht : a.rtype.getD "" ∈ ALLOWED_RECORD_TYPES
      · simp [appendedRecordRow, ht, h]
      · simp [appendedRecordRow, ht]
    · by_cases ht : a.rtype.getD "" ∈ ALLOWED_RECORD_TYPES
      · simp [appendedRecordRow, ht, hv, hpf]
      · simp [appendedRecordRow, ht]

/-- Processing `n` daily-summary close events only grows the summary
batch, one row per event; no flush ever happens on this branch. -/
theorem foldl_replicate_endActivity (pf : String → Option ℚ)
    (pyi : String → Option ℤ) (a : ActivityAttrs) (d : String)
    (hd : a.dateComponents = some d) (hne : d ≠ "") (n : ℕ) (s : ImportState) :
    (List.replicate n (Event.endActivity a)).foldl (stepEvent pf pyi) s =
      { s with activity_batch := s.activity_batch ++
          List.replicate n ⟨d, safe_float pf a.appleExerciseTime,
            safe_float pf a.activeEnergyBurned,
            safe_float pf a.activeEnergyBurnedGoal,
            safe_int pyi a.appleStandHours,
            safe_int pyi a.appleStandHoursGoal⟩ } := by
  induction n generalizing s with
  | zero => simp
  | succ n ih =>
    rw [List.replicate_succ, List.foldl_cons, ih]
    simp [stepEvent, hd, hne, List.replicate_succ]

/-- C4 counterexample: after streaming `BATCH_SIZE + 2` daily-summary
elements, the in-memory summary batch holds all `BATCH_SIZE + 2` rows —
more than the fixed batch size plus one — and nothing has been flushed to
the store: the summary (and workout) batches have no mid-stream flush. -/
theorem c4_counterexample :
    (((List.replicate (BATCH_SIZE + 2) (Event.endActivity c4Attrs)).foldl
        (stepEvent pfNone piNone) initState).activity_batch.length =
      BATCH_SIZE + 2) ∧
    (((List.replicate (BATCH_SIZE + 2) (Event.endActivity c4Attrs)).foldl
        (stepEvent pfNone piNone) initState).db.activities = []) := by
  rw [foldl_replicate_endActivity pfNone piNone c4Attrs "2025-01-01" rfl
    (by decide)]
  exact ⟨by simp [initState], by simp [initState, DB.empty]⟩

/-- C4 amended: only the measurements batch is flushed mid-stream — the
moment it reaches `BATCH_SIZE`, so between events it always holds fewer
than `BATCH_SIZE` rows — while the daily-summary and workout batches are
flushed exactly once, at end-of-stream (mid-stream their tables stay
empty), and each table ends up with its full remainder. -/
theorem c4_batching (pf : String → Option ℚ) (pyi : String → Option ℤ)
    (events : List Event) :
    ((events.foldl (stepEvent pf pyi) initState).record_batch.length <
      BATCH_SIZE) ∧
    ((events.foldl (stepEvent pf pyi) initState).db.activities = []) ∧
    ((events.foldl (stepEvent pf pyi) initState).db.workouts = []) ∧
    ((import_from_xml pf pyi events).1.records =
      (events.foldl (stepEvent pf pyi) initState).db.records ++
        (events.foldl (stepEvent pf pyi) initState).record_batch) ∧
    ((import_from_xml pf pyi events).1.activities =
      (events.foldl (stepEvent pf pyi) initState).activity_batch.foldl
        upsertActivity []) ∧
    ((import_from_xml pf pyi events).1.workouts =
      (events.foldl (stepEvent pf pyi) initState).workout_batch) := by
  have inv := foldl_inv pf pyi events initState (initState_inv pf)
  refine ⟨inv.rb_lt, inv.acts, inv.wkts, import_records_eq pf pyi events, ?_, ?_⟩
  · rw [import_activities_eq, inv.acts]
  · rw [import_workouts_eq, inv.wkts, List.nil_append]

/-! ## INSERT OR REPLACE semantics of the summary table -/

theorem mem_foldl_upsert (B : List ActivityRow) (tbl : List ActivityRow) :
    ∀ r ∈ B.foldl upsertActivity tbl, r ∈ tbl ∨ r ∈ B := by
  induction B generalizing tbl with
  | nil => intro r hr; exact Or.inl hr
  | cons b bs ih =>
    intro r hr
    rcases ih (upsertActivity tbl b) r hr with h | h
    · unfold upsertActivity at h
      rcases List.mem_append.mp h with h | h
      · exact Or.inl (List.mem_of_mem_filter h)
      · simp only [List.mem_singleton] at h
        subst h
        exact Or.inr (List.mem_cons_self _ _)
    · exact Or.inr (List.mem_cons_of_mem b h)

theorem upsert_pairwise (tbl : List ActivityRow) (b : ActivityRow)
    (h : tbl.Pairwise (fun x y => x.date ≠ y.date)) :
    (upsertActivity tbl b).Pairwise (fun x y => x.date ≠ y.date) := by
  unfold upsertActivity
  rw [List.pairwise_append]
  refine ⟨List.Pairwise.sublist (List.filter_sublist _) h, by simp, ?_⟩
  intro x hx y hy
  simp only [List.mem_singleton] at hy
  subst hy
  have := (List.mem_filter.mp hx).2
  simpa using this

theorem foldl_upsert_pairwise (B tbl : List ActivityRow)
    (h : tbl.Pairwise (fun x y => x.date ≠ y.date)) :
    (B.foldl upsertActivity tbl).Pairwise (fun x y => x.date ≠ y.date) := by
  induction B generalizing tbl with
  | nil => exact h
  | cons b bs ih => exact ih _ (upsert_pairwise tbl b h)

theorem foldl_upsert_getLast (B : List ActivityRow) :
    ∀ r ∈ B.foldl upsertActivity [],
      (B.filter (fun x => decide (x.date = r.date))).getLast? = some r := by
  induction B using List.reverseRecOn with
  | nil => intro r hr; simp at hr
  | append_singleton bs b ih =>
    intro r hr
    rw [List.foldl_append] at hr
    simp only [List.foldl_cons, List.foldl_nil] at hr
    unfold upsertActivity at hr
    rcases List.mem_append.mp hr with h | h
    · have hmem := List.mem_of_mem_filter h
      have hne : r.date ≠ b.date := by
        have := (List.mem_filter.mp h).2
        simpa using this
      rw [List.filter_append]
      have hb : ([b].filter (fun x => decide (x.date = r.date))) = [] := by
        simp [List.filter, Ne.symm hne]
      rw [hb, List.append_nil]
      exact ih r hmem
    · simp only [List.mem_singleton] at h
      subst h
      rw [List.filter_append]
      have hb : ([r].filter (fun x => decide (x.date = r.date))) = [r] := by
        simp [List.filter]
      rw [hb, List.getLast?_concat]

theorem upsert_length_of_fresh (tbl : List ActivityRow) (b : ActivityRow)
    (h : ∀ r ∈ tbl, r.date ≠ b.date) :
    (upsertActivity tbl b).length = tbl.length + 1 := by
  unfold upsertActivity
  rw [List.length_append]
  have hfil : tbl.filter (fun x => decide (x.date ≠ b.date)) = tbl := by
    rw [List.filter_eq_self]
    intro a ha
    simpa using h a ha
  rw [hfil]
  simp

theorem foldl_upsert_length (B : List ActivityRow)
    (h : B.Pairwise (fun x y => x.date ≠ y.date)) :
    (B.foldl upsertActivity []).length = B.length := by
  induction B using List.reverseRecOn with
  | nil => simp
  | append_singleton bs b ih =>
    rw [List.pairwise_append] at h
    obtain ⟨h1, _, h3⟩ := h
    rw [List.foldl_append]
    simp only [List.foldl_cons, List.foldl_nil]
    rw [upsert_length_of_fresh _ b ?fresh, ih h1, List.length_append]
    case fresh =>
      intro x hx
      rcases mem_foldl_upsert bs [] x hx with h0 | h0
      · simp at h0
      · exact h3 x h0 b (List.mem_singleton_self b)
    simp

/-- C6: after any import the daily-summaries table has at most one row
per calendar date (pairwise-distinct dates); each surviving row is the
LAST batched row carrying its date (a later record for the same date
overwrote the earlier); and the table's row count is bounded by the
number of distinct dates among the batched input rows. -/
theorem c6_summary_upsert (pf : String → Option ℚ) (pyi : String → Option ℤ)
    (events : List Event) :
    ((import_from_xml pf pyi events).1.activities.Pairwise
      (fun x y => x.date ≠ y.date)) ∧
    (∀ r ∈ (import_from_xml pf pyi events).1.activities,
      (((events.foldl (stepEvent pf pyi) initState).activity_batch).filter
        (fun x => decide (x.date = r.date))).getLast? = some r) ∧
    ((import_from_xml pf pyi events).1.activities.length ≤
      (((events.foldl (stepEvent pf pyi) initState).activity_batch).map
        (fun r => r.date)).dedup.length) := by
  have inv := foldl_inv pf pyi events initState (initState_inv pf)
  have hact : (import_from_xml pf pyi events).1.activities =
      ((events.foldl (stepEvent pf pyi) initState).activity_batch).foldl
        upsertActivity [] := by
    rw [import_activities_eq, inv.acts]
  refine ⟨?_, ?_, ?_⟩
  · rw [hact]
    exact foldl_upsert_pairwise _ [] List.Pairwise.nil
  · rw [hact]
    exact foldl_upsert_getLast _
  · rw [hact]
    have hp := foldl_upsert_pairwise
      ((events.foldl (stepEvent pf pyi) initState).activity_batch) []
      List.Pairwise.nil
    have hnodup :
        ((((events.foldl (stepEvent pf pyi) initState).activity_batch).foldl
          upsertActivity []).map (fun r => r.date)).Nodup :=
      (List.pairwise_map).mpr hp
    have hsub :
        ((((events.foldl (stepEvent pf pyi) initState).activity_batch).foldl
          upsertActivity []).map (fun r => r.date)) ⊆
        (((events.foldl (stepEvent pf pyi) initState).activity_batch).map
          (fun r => r.date)).dedup := by
      intro d hd
      rw [List.mem_dedup]
      obtain ⟨r, hr, rfl⟩ := List.mem_map.mp hd
      refine List.mem_map.mpr ⟨r, ?_, rfl⟩
      rcases mem_foldl_upsert _ [] r hr with h0 | h0
      · simp at h0
      · exact h0
    calc ((((events.foldl (stepEvent pf pyi) initState).activity_batch).foldl
            upsertActivity [])).length
        = ((((events.foldl (stepEvent pf pyi) initState).activity_batch).foldl
            upsertActivity []).map (fun r => r.date)).length :=
          (List.length_map _ _).symm
      _ ≤ _ := (hnodup.subperm hsub).length_le

/-- C8: the importer's return value counts exactly the rows written to
the store: flushed measurement rows plus batched daily-summary inserts
plus workout rows (rows dropped by the filter were never batched, so they
are excluded); when the summary dates are pairwise distinct — so the
`INSERT OR REPLACE` flush replaces nothing — the total equals the sum of
the three tables' final row counts. -/
theorem c8_total_count (pf : String → Option ℚ) (pyi : String → Option ℤ)
    (events : List Event) :
    ((import_from_xml pf pyi events).2 =
      (import_from_xml pf pyi events).1.records.length +
        (events.foldl (stepEvent pf pyi) initState).activity_batch.length +
        (import_from_xml pf pyi events).1.workouts.length) ∧
    (((events.foldl (stepEvent pf pyi) initState).activity_batch.Pairwise
        (fun x y => x.date ≠ y.date)) →
      (import_from_xml pf pyi events).2 =
        (import_from_xml pf pyi events).1.records.length +
          (import_from_xml pf pyi events).1.activities.length +
          (import_from_xml pf pyi events).1.workouts.length) := by
  have inv := foldl_inv pf pyi events initState (initState_inv pf)
  have hrec := import_records_eq pf pyi events
  have hwk := import_workouts_eq pf pyi events
  have hcnt := import_count_eq pf pyi events
  have hact : (import_from_xml pf pyi events).1.activities =
      ((events.foldl (stepEvent pf pyi) initState).activity_batch).foldl
        upsertActivity [] := by
    rw [import_activities_eq, inv.acts]
  have hlenr : (import_from_xml pf pyi events).1.records.length =
      (events.foldl (stepEvent pf pyi) initState).db.records.length +
        (events.foldl (stepEvent pf pyi) initState).record_batch.length := by
    rw [hrec, List.length_append]
  have hlenw : (import_from_xml pf pyi events).1.workouts.length =
      (events.foldl (stepEvent pf pyi) initState).workout_batch.length := by
    rw [hwk, inv.wkts, List.nil_append]
  constructor
  · rw [hcnt, hlenr, hlenw, inv.total]
  · intro hpw
    have hlena : (import_from_xml pf pyi events).1.activities.length =
        (events.foldl (stepEvent pf pyi) initState).activity_batch.length := by
      rw [hact, foldl_upsert_length _ hpw]
    rw [hcnt, hlenr, hlenw, hlena, inv.total]

/-- C7: a workout element commits the same session row whether its nested
distance statistic arrives before or after its nested energy statistic
(they populate disjoint builder fields), and a workout with no recognized
statistics still commits a row at its closing tag with the distance,
distance-unit, energy and energy-unit fields null. -/
theorem c7_workout_stats_order (pf : String → Option ℚ)
    (pyi : String → Option ℤ) (s : ImportState) (w : WorkoutAttrs)
    (d e : StatAttrs)
    (hd : strContains (d.stype.getD "") "Distance" = true)
    (he1 : strContains (e.stype.getD "") "Distance" = false)
    (he2 : strContains (e.stype.getD "") "EnergyBurned" = true) :
    (([Event.startWorkout w, Event.endWorkoutStat d, Event.endWorkoutStat e,
        Event.endWorkout]).foldl (stepEvent pf pyi) s =
      ([Event.startWorkout w, Event.endWorkoutStat e, Event.endWorkoutStat d,
        Event.endWorkout]).foldl (stepEvent pf pyi) s) ∧
    (([Event.startWorkout w, Event.endWorkout]).foldl (stepEvent pf pyi) s =
      { s with
          workout_batch := s.workout_batch ++
            [⟨w.workoutActivityType.getD "", safe_float pf w.duration,
              w.sourceName, parse_date w.startDate, parse_date w.endDate,
              none, none, none, none⟩]
          workout_pending := none }) := by
  constructor
  · simp [stepEvent, hd, he1, he2]
  · simp [stepEvent, WorkoutPending.toRow]

theorem c7_workout_stats_order_witness :
    ([Event.startWorkout c7w, Event.endWorkoutStat c7d,
       Event.endWorkoutStat c7e, Event.endWorkout]).foldl
      (stepEvent pfNone piNone) initState =
    ([Event.startWorkout c7w, Event.endWorkoutStat c7e,
       Event.endWorkoutStat c7d, Event.endWorkout]).foldl
      (stepEvent pfNone piNone) initState :=
  (c7_workout_stats_order pfNone piNone initState c7w c7d c7e
    (by with_unfolding_all rfl) (by with_unfolding_all rfl)
    (by with_unfolding_all rfl)).1

/-! ## Resampling and smoothing -/

/-- C1: a resampled bucket with zero contributing measurement rows
resolves to the explicit gap marker (`none`) and never to the number 0,
under both the sum (`min_count=1`) and the mean aggregation; and when the
range query matches no rows at all, `fetch_and_resample` returns a gap at
every tick of the axis, whatever the metric type, range, granularity,
aggregation kind and smoothing. -/
theorem c1_empty_bucket_gap (tbl : List TsRow) (dtype : String) (qs qe : ℕ)
    (f : Freq) (agg : Agg) (smoothing : ℕ) :
    (∀ b v, (b, v) ∈ resample agg f (queryRecords tbl dtype qs qe) →
      bucketRows f b (queryRecords tbl dtype qs qe) = [] → v = none) ∧
    (queryRecords tbl dtype qs qe = [] →
      fetch_and_resample tbl dtype qs qe f agg smoothing =
        (axisTicks f qs qe).map (fun b => (b, none))) := by
  constructor
  · intro b v hmem hempty
    cases hq : queryRecords tbl dtype qs qe with
    | nil => rw [hq] at hmem; simp [resample] at hmem
    | cons r rs =>
      rw [hq] at hmem hempty
      simp only [resample, List.mem_map] at hmem
      obtain ⟨b', hb', heq⟩ := hmem
      injection heq with h1 h2
      subst h1
      rw [← h2, hempty]
      rfl
  · intro h
    simp only [fetch_and_resample, h]

theorem rolling_length (n : ℕ) (xs : List (Option ℚ)) :
    (rolling n xs).length = xs.length := by
  simp [rolling]

theorem rolling_getD (n : ℕ) (xs : List (Option ℚ)) (i : ℕ)
    (hi : i < xs.length) :
    (rolling n xs).getD i none =
      (if (windowVals n xs i).isEmpty then none
       else some ((windowVals n xs i).sum / ((windowVals n xs i).length : ℚ))) := by
  unfold rolling
  rw [List.getD_eq_getElem?_getD, List.getElem?_map, List.getElem?_range hi]
  rfl

theorem windowSlice_length (n : ℕ) (xs : List (Option ℚ)) (i : ℕ)
    (hi : i < xs.length) :
    (windowSlice n xs i).length = min n (i + 1) := by
  unfold windowSlice
  rw [List.length_drop, List.length_take]
  omega

theorem rolling_none_iff (n : ℕ) (xs : List (Option ℚ)) (i : ℕ)
    (hi : i < xs.length) :
    (rolling n xs).getD i none = none ↔
      ∀ v ∈ windowSlice n xs i, v = none := by
  have hv : windowVals n xs i = (windowSlice n xs i).filterMap id := rfl
  rw [rolling_getD n xs i hi]
  constructor
  · intro h0 v hvmem
    by_cases h : (windowVals n xs i).isEmpty
    · have hnil : (windowSlice n xs i).filterMap id = [] := by
        rw [← hv]
        exact List.isEmpty_iff.mp h
      have hmem := List.filterMap_eq_nil_iff.mp hnil
      simpa using hmem v hvmem
    · rw [if_neg h] at h0
      simp at h0
  · intro hall
    have hnil : windowVals n xs i = [] := by
      rw [hv]
      exact List.filterMap_eq_nil_iff.mpr (by simpa using hall)
    rw [if_pos (by simp [hnil])]

theorem rolling_full_window (n : ℕ) (xs : List (Option ℚ)) (i : ℕ)
    (hi : i < xs.length) (ys : List ℚ)
    (h : windowSlice n xs i = ys.map some) (hne : ys ≠ []) :
    (rolling n xs).getD i none = some (ys.sum / (ys.length : ℚ)) := by
  have hv : windowVals n xs i = ys := by
    unfold windowVals
    rw [h]
    simp [List.filterMap_map]
  rw [rolling_getD n xs i hi, hv,
    if_neg (by simpa [List.isEmpty_iff] using hne)]

theorem rolling_some_mean (n : ℕ) (xs : List (Option ℚ)) (i : ℕ)
    (hi : i < xs.length) (v : ℚ)
    (h : (rolling n xs).getD i none = some v) :
    windowVals n xs i ≠ [] ∧
      v * ((windowVals n xs i).length : ℚ) = (windowVals n xs i).sum := by
  rw [rolling_getD n xs i hi] at h
  by_cases hemp : (windowVals n xs i).isEmpty
  · rw [if_pos hemp] at h
    simp at h
  · rw [if_neg hemp] at h
    have hne : windowVals n xs i ≠ [] := by
      simpa [List.isEmpty_iff] using hemp
    refine ⟨hne, ?_⟩
    injection h with h
    rw [← h, div_mul_cancel₀]
    exact Nat.cast_ne_zero.mpr (by simpa [List.length_eq_zero] using hne)

theorem rolling_one (xs : List (Option ℚ)) : rolling 1 xs = xs := by
  apply List.ext_getElem (rolling_length 1 xs)
  intro i h1 h2
  have hslice : windowSlice 1 xs i = [xs[i]] := by
    unfold windowSlice
    rw [List.drop_take]
    simp only [Nat.add_sub_cancel, Nat.add_sub_cancel_left]
    exact List.take_one_drop_eq_of_lt_length h2
  have hv : windowVals 1 xs i = ([xs[i]] : List (Option ℚ)).filterMap id := by
    unfold windowVals
    rw [hslice]
  simp only [rolling, List.getElem_map, List.getElem_range]
  cases hx : xs[i] with
  | none => simp [hv, hx]
  | some v => simp [hv, hx]

/-- C2 counterexample: hour bucket 1 has zero rows and is a gap in the
unsmoothed bucketed series, yet smoothing with window 2 reports the
number 5 there: `rolling(n, min_periods=1).mean()` averages the non-NaN
entries of the trailing window, so a gap whose window holds a data tick
becomes numeric — the smoothing step does convert an existing gap into a
value, contradicting the claim as stated. -/
theorem c2_smoothing_counterexample :
    (resample .sum .hour
        (queryRecords c2Tbl "HKQuantityTypeIdentifierStepCount" 0 179) =
      [(0, some 5), (1, none), (2, some 7)]) ∧
    (fetch_and_resample c2Tbl "HKQuantityTypeIdentifierStepCount" 0 179
        .hour .sum 2 =
      [(0, some 5), (1, some 5), (2, some 7)]) := by
  constructor
  · with_unfolding_all rfl
  · with_unfolding_all rfl

/-- C2 amended: the smoothing step is a trailing moving average whose
window at position `i` covers `min N (i+1)` buckets (partial-window
averaging at the leading edge); a window of 1 leaves the series strictly
unchanged; a gap is never treated as 0 inside an average — the mean is
taken over the window's non-gap values only, dividing by their count —
and a gap-free window yields the plain mean of its `min N (i+1)` values;
but a tick that is a gap in the unsmoothed series stays a gap only when
its whole trailing window is gaps: with at least one non-gap value in the
window it becomes the mean of those values. -/
theorem c2_smoothing_window (n : ℕ) (xs : List (Option ℚ)) (i : ℕ)
    (hi : i < xs.length) :
    (rolling 1 xs = xs) ∧
    ((windowSlice n xs i).length = min n (i + 1)) ∧
    ((rolling n xs).getD i none = none ↔
      ∀ v ∈ windowSlice n xs i, v = none) ∧
    (∀ ys : List ℚ, windowSlice n xs i = ys.map some → ys ≠ [] →
      (rolling n xs).getD i none = some (ys.sum / (ys.length : ℚ))) ∧
    (∀ v : ℚ, (rolling n xs).getD i none = some v →
      windowVals n xs i ≠ [] ∧
        v * ((windowVals n xs i).length : ℚ) = (windowVals n xs i).sum) :=
  ⟨rolling_one xs, windowSlice_length n xs i hi, rolling_none_iff n xs i hi,
    fun ys h hne => rolling_full_window n xs i hi ys h hne,
    fun v h => rolling_some_mean n xs i hi v h⟩

theorem c2_smoothing_window_witness :
    rolling 1 [some (5 : ℚ), none, some 7] = [some 5, none, some 7] :=
  (c2_smoothing_window 2 [some 5, none, some 7] 1 (by decide)).1

/-! ## Alignment of an index-contiguous series onto the common axis -/

theorem find_range_map (g : ℕ → Option ℚ) (a n b : ℕ) :
    (((List.range' a n).map (fun i => (i, g i))).find? (fun p => p.1 == b)) =
      if a ≤ b ∧ b < a + n then some (b, g b) else none := by
  induction n generalizing a with
  | zero =>
    rw [List.range'_zero, List.map_nil, List.find?_nil, if_neg (by omega)]
  | succ n ih =>
    rw [List.range'_succ, List.map_cons]
    by_cases hab : a = b
    · subst hab
      rw [List.find?_cons_of_pos _ (by simp), if_pos (by omega)]
    · rw [List.find?_cons_of_neg _ (by simpa using hab), ih (a + 1)]
      have hiff : (a + 1 ≤ b ∧ b < a + 1 + n) ↔ (a ≤ b ∧ b < a + (n + 1)) := by
        omega
      rw [if_congr hiff rfl rfl]

theorem series_to_list_range_map (g : ℕ → Option ℚ) (a n : ℕ)
    (axis : List ℕ) :
    series_to_list ((List.range' a n).map (fun i => (i, g i))) axis =
      axis.map (fun b => if a ≤ b ∧ b < a + n then g b else none) := by
  unfold series_to_list
  apply List.map_congr_left
  intro b _
  rw [find_range_map]
  by_cases h : a ≤ b ∧ b < a + n
  · rw [if_pos h, if_pos h]
    rfl
  · rw [if_neg h, if_neg h]
    rfl

theorem foldl_min_le (l : List ActivityTsRow) (d : ℕ) :
    l.foldl (fun m x => min m x.day) d ≤ d := by
  induction l generalizing d with
  | nil => exact Nat.le_refl d
  | cons x xs ih =>
    exact Nat.le_trans (ih (min d x.day)) (Nat.min_le_left _ _)

theorem le_foldl_max (l : List ActivityTsRow) (d : ℕ) :
    d ≤ l.foldl (fun m x => max m x.day) d := by
  induction l generalizing d with
  | nil => exact Nat.le_refl d
  | cons x xs ih =>
    exact Nat.le_trans (Nat.le_max_left _ _) (ih (max d x.day))

/-- C5 counterexample: on the hourly axis spanning days 0–2 inclusive
(72 ticks, minutes 0–4319), tick 49 — hour 01:00 of day 2 — falls in a
calendar day that has a summary row (day 2, value 30), yet the aligned
exercise series is a gap there rather than 30: the upsampled series ends
at the last summarized day's midnight tick, so only day 2's 00:00 tick
carries its value. -/
theorem c5_counterexample :
    (c5Tbl.find? (fun r => r.day == 49 / 24) = some ⟨2, some 30⟩) ∧
    ((axisTicks .hour 0 4319).length = 72) ∧
    ((series_to_list (fetch_exercise_minutes (some c5Tbl) 0 4319 .hour)
        (axisTicks .hour 0 4319)).getD 49 none = none) := by
  refine ⟨?_, ?_, ?_⟩
  · with_unfolding_all rfl
  · with_unfolding_all rfl
  · with_unfolding_all rfl

/-- C5 amended: at hourly granularity the aligned exercise series carries,
at an axis tick `h`, the summed value of `h`'s calendar day exactly when
`h` lies between the first summarized day's midnight and the LAST
summarized day's midnight (so a summarized day strictly before the last
is broadcast over all its 24 hours, a day with no summary row contributes
a NaN bin and its hours are gaps); every tick after the last summarized
day's midnight — including the rest of that day's own hours — is a gap.
In the D/D+2 scenario the 72-tick axis reads: 24 ticks of D's value,
24 gaps, D+2's value at its midnight tick only, then 23 gaps. -/
theorem c5_hourly_broadcast :
    (∀ (tbl : List ActivityTsRow) (qs qe : ℕ) (r : ActivityTsRow)
        (rs : List ActivityTsRow) (axis : List ℕ),
      queryActivities tbl qs qe = r :: rs →
      series_to_list (fetch_exercise_minutes (some tbl) qs qe .hour) axis =
        axis.map (fun h =>
          if (rs.foldl (fun m x => min m x.day) r.day) * 24 ≤ h ∧
              h ≤ (rs.foldl (fun m x => max m x.day) r.day) * 24 then
            dailySum (r :: rs) (h / 24)
          else none)) ∧
    (series_to_list (fetch_exercise_minutes (some c5Tbl) 0 4319 .hour)
        (axisTicks .hour 0 4319) =
      List.replicate 24 (some 10) ++ (List.replicate 24 none ++
        (some 30 :: List.replicate 23 none))) := by
  constructor
  · intro tbl qs qe r rs axis hq
    have hd : rs.foldl (fun m x => min m x.day) r.day ≤
        rs.foldl (fun m x => max m x.day) r.day :=
      Nat.le_trans (foldl_min_le rs r.day) (le_foldl_max rs r.day)
    have hfx : fetch_exercise_minutes (some tbl) qs qe .hour =
        (List.range' ((rs.foldl (fun m x => min m x.day) r.day) * 24)
          ((rs.foldl (fun m x => max m x.day) r.day) * 24 + 1 -
            (rs.foldl (fun m x => min m x.day) r.day) * 24)).map
          (fun h => (h, dailySum (r :: rs) (h / 24))) := by
      simp only [fetch_exercise_minutes, hq]
    rw [hfx, series_to_list_range_map]
    apply List.map_congr_left
    intro b _
    have hiff : ((rs.foldl (fun m x => min m x.day) r.day) * 24 ≤ b ∧
        b < (rs.foldl (fun m x => min m x.day) r.day) * 24 +
          ((rs.foldl (fun m x => max m x.day) r.day) * 24 + 1 -
            (rs.foldl (fun m x => min m x.day) r.day) * 24)) ↔
        ((rs.foldl (fun m x => min m x.day) r.day) * 24 ≤ b ∧
          b ≤ (rs.foldl (fun m x => max m x.day) r.day) * 24) := by
      have h24 : (rs.foldl (fun m x => min m x.day) r.day) * 24 ≤
          (rs.foldl (fun m x => max m x.day) r.day) * 24 :=
        Nat.mul_le_mul_right 24 hd
      omega
    rw [if_congr hiff rfl rfl]
  · with_unfolding_all rfl

/-! ## Route-level behaviour -/

theorem series_to_list_all_none (s : List (ℕ × Option ℚ)) (axis : List ℕ)
    (h : ∀ p ∈ s, p.2 = none) : ∀ v ∈ series_to_list s axis, v = none := by
  intro v hv
  unfold series_to_list at hv
  obtain ⟨b, _, rfl⟩ := List.mem_map.mp hv
  cases hf : s.find? (fun p => p.1 == b) with
  | none => rfl
  | some p =>
    have hp := List.mem_of_find?_eq_some hf
    simpa using h p hp

theorem fetch_exercise_minutes_absent (qs qe : ℕ) (f : Freq) :
    ∀ p ∈ fetch_exercise_minutes none qs qe f, p.2 = none := by
  intro p hp
  simp only [fetch_exercise_minutes] at hp
  obtain ⟨b, _, rfl⟩ := List.mem_map.mp hp
  rfl

/-- C9: with the measurements table absent, or present but empty, both
the chart-data and snapshot routes return the fixed all-empty response
shape (empty label and series arrays, null scalars) instead of an error;
and with measurements present but the optional daily-summaries table
absent, the chart-data exercise average and every tick of the exercise
series, and the snapshot's exercise minutes, degrade to nulls. -/
theorem c9_empty_state :
    (∀ (adb : Option (List ActivityTsRow)) (now : ℕ) (rp : String),
      api_data ⟨none, adb⟩ now rp = emptyChartResponse ∧
      api_snapshot ⟨none, adb⟩ now = emptySnapshotResponse) ∧
    (∀ (adb : Option (List ActivityTsRow)) (now : ℕ) (rp : String),
      api_data ⟨some [], adb⟩ now rp = emptyChartResponse ∧
      api_snapshot ⟨some [], adb⟩ now = emptySnapshotResponse) ∧
    (∀ (tbl : List TsRow) (now : ℕ) (rp : String), tbl ≠ [] →
      (api_data ⟨some tbl, none⟩ now rp).avg_exercise_minutes = none ∧
      (∀ v ∈ (api_data ⟨some tbl, none⟩ now rp).exercise_minutes, v = none) ∧
      (api_snapshot ⟨some tbl, none⟩ now).exercise_minutes = none) := by
  refine ⟨?_, ?_, ?_⟩
  · intro adb now rp
    exact ⟨by simp [api_data, db_has_data], by simp [api_snapshot, db_has_data]⟩
  · intro adb now rp
    exact ⟨by simp [api_data, db_has_data], by simp [api_snapshot, db_has_data]⟩
  · intro tbl now rp hne
    have htrue : db_has_data ⟨some tbl, none⟩ = true := by
      simp [db_has_data, List.length_pos, hne]
    refine ⟨?_, ?_, ?_⟩
    · simp [api_data, htrue, avgExerciseInRange, truthyQ]
    · intro v hv
      simp only [api_data, htrue, Bool.true_eq_false, if_false] at hv
      exact series_to_list_all_none _ _
        (fetch_exercise_minutes_absent _ _ _) v hv
    · simp [api_snapshot, htrue, truthyQ]

/-- C10: in the derived scalars of the two responses an aggregate whose
true value is exactly 0 is reported as `null`, not 0 — the
`row[0] if row and row[0] else None` pattern filters the falsy 0: a steps
sum of 0 over the chart range nulls `avg_daily_steps`, an exercise
average of 0 nulls `avg_exercise_minutes`, a zero steps total for the
latest day nulls the snapshot's `total_steps`, and a stored exercise
value of 0 nulls the snapshot's `exercise_minutes`. -/
theorem c10_zero_reported_null (tbl : List TsRow)
    (adb : Option (List ActivityTsRow)) (now : ℕ) (rp : String) :
    (stepsSumInRange tbl
        (dataRange ((RANGE_CONFIG rp).getD ⟨7 * 1440, .hour, 3⟩) tbl now).1
        (dataRange ((RANGE_CONFIG rp).getD ⟨7 * 1440, .hour, 3⟩) tbl now).2 =
          some 0 →
      (api_data ⟨some tbl, adb⟩ now rp).avg_daily_steps = none) ∧
    (avgExerciseInRange adb
        (dataRange ((RANGE_CONFIG rp).getD ⟨7 * 1440, .hour, 3⟩) tbl now).1
        (dataRange ((RANGE_CONFIG rp).getD ⟨7 * 1440, .hour, 3⟩) tbl now).2 =
          some 0 →
      (api_data ⟨some tbl, adb⟩ now rp).avg_exercise_minutes = none) ∧
    (sqlSum ((tbl.filter (fun r =>
        r.rtype == "HKQuantityTypeIdentifierStepCount" &&
          decide (get_latest_data_date tbl now / 1440 * 1440 ≤ r.t))).map
        (fun r => r.value)) = some 0 →
      (api_snapshot ⟨some tbl, adb⟩ now).total_steps = none) ∧
    ((adb.bind (fun atbl => (atbl.find? (fun r =>
        r.day == get_latest_data_date tbl now / 1440)).bind
          (fun r => r.exercise))) = some 0 →
      (api_snapshot ⟨some tbl, adb⟩ now).exercise_minutes = none) := by
  by_cases hdb : db_has_data ⟨some tbl, adb⟩ = true
  · refine ⟨?_, ?_, ?_, ?_⟩
    · intro h
      simp [api_data, hdb, h, truthyQ]
    · intro h
      simp [api_data, hdb, h, truthyQ]
    · intro h
      simp [api_snapshot, hdb, h, truthyQ]
    · intro h
      cases adb with
      | none => exact Option.noConfusion h
      | some atbl =>
        simp only [Option.some_bind] at h
        simp [api_snapshot, hdb, h, truthyQ]
  · have hfalse : db_has_data ⟨some tbl, adb⟩ = false := by
      revert hdb
      cases db_has_data ⟨some tbl, adb⟩ <;> simp
    refine ⟨?_, ?_, ?_, ?_⟩ <;> intro h <;>
      simp [api_data, api_snapshot, hfalse, emptyChartResponse,
        emptySnapshotResponse]

end SolisticHealth
